import Mathlib

/-!
Shallow embedding of goproxy's CONNECT handling (src/https.go) and proofs of
the specification's claims about it.

Machine strings (hosts, URLs, wire bytes, error messages) are modelled as Lean
`String`s; byte streams written to the hijacked client connection are modelled
as a trace of events.  I/O outcomes (dial results, write errors, body-read
errors) are supplied as explicit oracle parameters, so every branch of the Go
code becomes a branch of a total Lean function.
-/

namespace Goproxy

/-- An I/O error, carried as its message string (Go `error`). `none` is Go `nil`. -/
abbrev Err := String

/-- Modelled from the spec: the repository's `hasPort` regular expression is defined
outside this source file; per the spec ("if the target host lacks `:port`"), it
matches exactly the hosts that end in a colon followed by one or more digits. -/
def hasPortMatch (s : String) : Bool :=
  let rev := s.data.reverse
  let digits := rev.takeWhile (fun c => c.isDigit)
  (decide (digits ≠ [])) && ((rev.drop digits.length).head? == some ':')

/-- stripPort (src/https.go 50-53): removes the trailing `:digits` part matched by
`hasPort`, if any. -/
def stripPort (s : String) : String :=
  if hasPortMatch s then
    let rev := s.data.reverse
    let digits := rev.takeWhile (fun c => c.isDigit)
    String.mk ((rev.drop (digits.length + 1)).reverse)
  else s

/-- ConnectActionLiteral (src/https.go 21-30). -/
inductive ConnectActionLiteral where
  | ConnectAccept
  | ConnectReject
  | ConnectMitm
  | ConnectHijack
  | ConnectHTTPMitm
  | ConnectProxyAuthHijack
  deriving DecidableEq, Repr

/-- The literal written for Accept / MitmHTTP / MitmTLS (src/https.go 116, 140, 178). -/
def http200 : String := "HTTP/1.0 200 OK\r\n\r\n"

/-- The literal written by httpError (src/https.go 316). -/
def http502 : String := "HTTP/1.1 502 Bad Gateway\r\n\r\n"

/-- The literal written for ProxyAuthHijack (src/https.go 302); a single CRLF. -/
def http407 : String := "HTTP/1.1 407 Proxy Authentication Required\r\n"

/-- Observable events on the hijacked client connection, in program order.
`written s` is an attempted write of the bytes `s`; `hijackInvoked` is the call
`todo.Hijack(r, proxyResponseWriter, proxyCtx)`; `closed` is a `Close()`. -/
inductive ClientEvent where
  | written (bytes : String)
  | hijackInvoked
  | closed
  deriving DecidableEq, Repr

/-- I/O outcomes handleHttps encounters, supplied as an oracle.  `dialErr` is the
result of `connectDial` (Accept, MitmHTTP); `tlsFactoryPresent`/`tlsFactoryErr`
describe `todo.TLSConfig` (MitmTLS); `write502Fails` is whether the 502 write in
`httpError` fails; `rejectResp` is the serialized `ctx.Resp` for Reject, when set. -/
structure ConnectOracle where
  dialErr : Option Err
  tlsFactoryPresent : Bool
  tlsFactoryErr : Option Err
  write502Fails : Bool
  rejectResp : Option String
  deriving DecidableEq, Repr

/-- httpError (src/https.go 315-322): writes the 502 line and closes the stream.
A failed 502 write is only logged; the `Close()` runs unconditionally, so the
event trace does not depend on the write outcome. -/
def httpErrorEvents (_write502Fails : Bool) : List ClientEvent :=
  [.written http502, .closed]

/-- Port defaulting on the Accept path (src/https.go 107-109). -/
def acceptHost (host : String) : String :=
  if hasPortMatch host then host else host ++ ":80"

/-- Result of one run of handleHttps: the events on the client connection and the
address passed to `connectDial`, if any. -/
structure ConnectOutcome where
  clientEvents : List ClientEvent
  dialedHost : Option String
  deriving DecidableEq, Repr

/-- handleHttps's action switch (src/https.go 104-312), as the trace of client
events each branch produces.  Reaching the switch requires the hijack at line 85
to have succeeded (a failure panics), so the CONNECT-level error `e` is nil here.
The bytes a tunnel or MITM session later relays are abstract suffixes
(`relayBytes`, `mitmSession`, `httpMitmSession`): the claims below only concern
the prefix the switch itself writes. -/
def handleHttps (a : ConnectActionLiteral) (host : String) (o : ConnectOracle)
    (mitmSession relayBytes httpMitmSession : List ClientEvent) : ConnectOutcome :=
  match a with
  | .ConnectAccept =>
      -- dial happens before any byte is written to the client (lines 107-116)
      let h := acceptHost host
      match o.dialErr with
      | some _ => ⟨httpErrorEvents o.write502Fails, some h⟩
      | none => ⟨.written http200 :: relayBytes, some h⟩
  | .ConnectHijack => ⟨[.hijackInvoked], none⟩
  | .ConnectHTTPMitm =>
      -- 200 is written before dialing (lines 140-145); a dial failure only warns
      match o.dialErr with
      | some _ => ⟨[.written http200], some host⟩
      | none => ⟨.written http200 :: httpMitmSession, some host⟩
  | .ConnectMitm =>
      -- 200 first (line 178); then the TLSConfig factory (lines 184-192)
      if o.tlsFactoryPresent then
        match o.tlsFactoryErr with
        | some _ => ⟨.written http200 :: httpErrorEvents o.write502Fails, none⟩
        | none => ⟨.written http200 :: mitmSession, none⟩
      else ⟨.written http200 :: mitmSession, none⟩
  | .ConnectProxyAuthHijack =>
      ⟨[.written http407, .hijackInvoked], none⟩
  | .ConnectReject =>
      match o.rejectResp with
      | some bytes => ⟨[.written bytes, .closed], none⟩
      | none => ⟨[.closed], none⟩

/-- httpsRegexp `^https:\/\/` (src/https.go 37): matches strings that begin
with the literal `https://`. -/
def httpsRegexpMatch (s : String) : Bool :=
  "https://".data.isPrefixOf s.data

/-- The inner-request URL rewrite of the MITM loop (src/https.go 220-222): when
the inner URL does not match `^https://`, the upstream URL is parsed from
`"https://" + r.Host + req.URL.String()`.  URLs are modelled by their string
form, with `url.Parse` of the synthesized absolute URL modelled as returning
that string. -/
def innerUpstreamURL (outerConnectHost innerURL : String) : String :=
  if httpsRegexpMatch innerURL then innerURL
  else "https://" ++ outerConnectHost ++ innerURL

/-- A parent proxy URL, reduced to the fields the dialer reads. -/
structure ProxyURL where
  scheme : String
  host : String
  deriving DecidableEq, Repr

/-- The kind of dialer NewConnectDialToProxyWithHandler builds, together with
the parent-proxy address it will dial (src/https.go 360-363 and 400-403). -/
inductive ParentDialer where
  | plainProxy (proxyHost : String)
  | tlsProxy (proxyHost : String)
  deriving DecidableEq, Repr

/-- NewConnectDialToProxyWithHandler (src/https.go 355-442), reduced to which
dialer (if any) it returns.  `parsed` is the result of `url.Parse(https_proxy)`
(`none` on a parse error).  A parse error and any scheme other than the empty
string, `http`, `https` or `wss` return nil (lines 357-359, 441). -/
def NewConnectDialToProxyWithHandler (parsed : Option ProxyURL) :
    Option ParentDialer :=
  match parsed with
  | none => none
  | some u =>
    if u.scheme = "" ∨ u.scheme = "http" then
      some (.plainProxy (if hasPortMatch u.host then u.host else u.host ++ ":80"))
    else if u.scheme = "https" ∨ u.scheme = "wss" then
      some (.tlsProxy (if hasPortMatch u.host then u.host else u.host ++ ":443"))
    else none

/-- The parent proxy's response body, as a stream: it yields `avail` and then
either errors with `readErr` or reports a clean EOF. -/
structure BodyStream where
  avail : String
  readErr : Option Err
  deriving DecidableEq, Repr

/-- `ioutil.ReadAll(resp.Body)` (src/https.go 390): the whole body, or the
stream's error. -/
def readAllFull (b : BodyStream) : Except Err String :=
  match b.readErr with
  | some e => .error e
  | none => .ok b.avail

/-- `ioutil.ReadAll(io.LimitReader(resp.Body, n))` (src/https.go 431): stops
after `n` bytes, so the stream's error is only observed when fewer than `n`
bytes are available. -/
def readAllLimited (n : Nat) (b : BodyStream) : Except Err String :=
  if n ≤ b.avail.data.length then .ok (String.mk (b.avail.data.take n))
  else
    match b.readErr with
    | some e => .error e
    | none => .ok b.avail

/-- The parent proxy's parsed CONNECT response. -/
structure ProxyConnectResp where
  statusCode : Nat
  body : BodyStream
  deriving DecidableEq, Repr

/-- What a parent-proxy dialer call does after `http.ReadResponse`: whether the
raw socket is returned (`.ok ()`) or an error, and whether the socket was
closed before returning. -/
structure DialStepOutcome where
  result : Except Err Unit
  socketClosed : Bool
  deriving Repr

/-- Response handling shared by both parent-proxy dialers
(src/https.go 383-397 plain, 424-438 TLS); `limit` is `none` for the plain
dialer's full `ReadAll` and `some 500` for the TLS dialer's `LimitReader`.
`respRead` is the result of `http.ReadResponse` (an error closes the socket,
lines 384-387 / 425-428).  On a non-200 status the body is read; a body-read
error is returned as-is WITHOUT closing the socket (lines 391-393 / 432-434);
a successful read closes the socket and returns
`"proxy refused connection" + body`.  On 200 the raw socket is returned. -/
def proxyConnectHandle (limit : Option Nat)
    (respRead : Except Err ProxyConnectResp) : DialStepOutcome :=
  match respRead with
  | .error e => ⟨.error e, true⟩
  | .ok resp =>
    if resp.statusCode ≠ 200 then
      let rd := match limit with
        | none => readAllFull resp.body
        | some n => readAllLimited n resp.body
      match rd with
      | .error e => ⟨.error e, false⟩
      | .ok b => ⟨.error ("proxy refused connection" ++ b), true⟩
    else ⟨.ok (), false⟩

/-- The plain-HTTP parent-proxy dialer's response handling (src/https.go 383-397). -/
def plainProxyConnect (respRead : Except Err ProxyConnectResp) : DialStepOutcome :=
  proxyConnectHandle none respRead

/-- The HTTPS/WSS parent-proxy dialer's response handling (src/https.go 424-438). -/
def tlsProxyConnect (respRead : Except Err ProxyConnectResp) : DialStepOutcome :=
  proxyConnectHandle (some 500) respRead

/-- Outcomes of the six I/O operations of the inner-response write block
(src/https.go 262, 272, 276, 281, 285, 289), in program order:
status-line write, header-block write, header-terminating CRLF write,
chunked body copy, chunked-writer close, trailing CRLF write. -/
structure WriteOutcomes where
  statusWriteErr : Option Err
  headerWriteErr : Option Err
  headCrlfErr : Option Err
  bodyCopyErr : Option Err
  chunkCloseErr : Option Err
  tailCrlfErr : Option Err
  deriving DecidableEq, Repr

/-- The inner-response write block of the TLS MITM session loop
(src/https.go 255-293), reduced to its error flow: the returned value is the
loop variable `err` at the moment the block exits.  `e` is the CONNECT-level
hijack error from line 85 (nil in every execution that reaches the loop, since
a non-nil `e` panics at line 87).  The source guards the body-copy step (line
281) and the chunked-close step (line 285) with `e != nil` rather than
`err != nil`, so those two steps never cause an early exit when `e` is nil and
their error is overwritten by the next assignment to `err`. -/
def writeRespBlock (e : Option Err) (o : WriteOutcomes) : Option Err :=
  match o.statusWriteErr with
  | some er => some er
  | none =>
    match o.headerWriteErr with
    | some er => some er
    | none =>
      match o.headCrlfErr with
      | some er => some er
      | none =>
        -- err = copy error, but the guard tests e (line 281)
        if e.isSome then o.bodyCopyErr
        else
          -- err = chunked.Close() error, but the guard tests e (line 285)
          if e.isSome then o.chunkCloseErr
          else o.tailCrlfErr

/-- After the write block, the loop runs `if err != nil { return }`
(src/https.go 294-296): the session loop terminates iff the block left a
non-nil `err`. -/
def sessionLoopTerminatesAfterWrite (e : Option Err) (o : WriteOutcomes) : Bool :=
  (writeRespBlock e o).isSome

/-- A Go `http.Header`, as an association list with canonicalized keys;
`Set` replaces all values of a key, `Del` removes the key, `Get` returns the
first value. -/
abbrev HeaderMap := List (String × String)

def hdrDel (h : HeaderMap) (k : String) : HeaderMap :=
  h.filter (fun p => p.1 != k)

def hdrSet (h : HeaderMap) (k v : String) : HeaderMap :=
  (k, v) :: hdrDel h k

def hdrGet (h : HeaderMap) (k : String) : Option String :=
  match h with
  | [] => none
  | p :: t => if p.1 = k then some p.2 else hdrGet t k

/-- Go strings.TrimPrefix. -/
def trimPrefixStr (s pre : String) : String :=
  if pre.data.isPrefixOf s.data then String.mk (s.data.drop pre.data.length) else s

/-- The status line the MITM loop writes for an inner response
(src/https.go 258-262): `"HTTP/1.1"+" "+statusCode+text+"\r\n"` where
`statusCode` is the code followed by a space and `text` is `resp.Status` with
that prefix trimmed. -/
def mitmStatusLine (statusCode : Nat) (status : String) : String :=
  let sc := toString statusCode ++ " "
  "HTTP/1.1" ++ " " ++ sc ++ trimPrefixStr status sc ++ "\r\n"

/-- The header rewrite the MITM loop applies before serializing an inner
response (src/https.go 268-271): delete Content-Length, set
Transfer-Encoding: chunked, set Connection: close. -/
def mitmHeaderRewrite (h : HeaderMap) : HeaderMap :=
  hdrSet (hdrSet (hdrDel h "Content-Length") "Transfer-Encoding" "chunked")
    "Connection" "close"

/-- Certificate, reduced to the field the claims are about. -/
structure Certificate where
  sanList : List String
  deriving DecidableEq, Repr

/-- Modelled from the spec: `signHost(serverNames)` (defined outside this source
file) "produces a leaf certificate whose SAN list is the given names". -/
def signHost (serverNames : List String) : Certificate :=
  ⟨serverNames⟩

/-- A certificate store's cache contents, keyed by server name. -/
abbrev CertCache := List (String × Certificate)

/-- Modelled from the spec: `Fetch(key, generator)` (defined outside this source
file) "returns a cached certificate if present; otherwise invokes `generator`".-/
def Fetch (cache : CertCache) (key : String) (generator : Unit → Certificate) :
    Certificate :=
  match cache.find? (fun p => p.1 == key) with
  | some p => p.2
  | none => generator ()

/-- Per the spec, `Fetch` "populates the cache before returning" with the
generator's result, and the MITM path only ever generates via
`signHost [serverName]`; so every cache entry is `signHost` of its own key. -/
def cacheWellFormed (cache : CertCache) : Prop :=
  ∀ p ∈ cache, p.2 = signHost [p.1]

/-- The server name chosen by TLSConfigFromCA's GetCertificate callback
(src/https.go 446-451): the ClientHello SNI when non-empty, else the CONNECT
host with its port stripped. -/
def getCertServerName (connectHost sni : String) : String :=
  if sni ≠ "" then sni else stripPort connectHost

/-- Which code path produced the certificate (src/https.go 459-463). -/
inductive CertPath where
  | viaFetch
  | directGen
  deriving DecidableEq, Repr

/-- TLSConfigFromCA's GetCertificate callback (src/https.go 448-465) for one
handshake: choose the server name, then fetch through the store when one is
configured, else call the generator directly. -/
def getCertificate (store : Option CertCache) (connectHost sni : String) :
    CertPath × Certificate :=
  let serverName := getCertServerName connectHost sni
  let genCert := fun (_ : Unit) => signHost [serverName]
  match store with
  | some cache => (.viaFetch, Fetch cache serverName genCert)
  | none => (.directGen, genCert ())

/-! ## Helper lemmas about the header model -/

theorem hdrGet_del_self (l : HeaderMap) (k : String) :
    hdrGet (hdrDel l k) k = none := by
  induction l with
  | nil => rfl
  | cons a t ih =>
    by_cases ha : a.1 = k
    · simpa [hdrDel, List.filter_cons, ha] using ih
    · simpa [hdrDel, List.filter_cons, ha, hdrGet] using ih

theorem hdrGet_del_ne (l : HeaderMap) (k k' : String) (hne : k ≠ k') :
    hdrGet (hdrDel l k') k = hdrGet l k := by
  induction l with
  | nil => rfl
  | cons a t ih =>
    by_cases ha : a.1 = k'
    · have hak : a.1 ≠ k := fun hh => hne (hh.symm.trans ha)
      simpa [hdrDel, List.filter_cons, ha, hdrGet, hak, hne.symm] using ih
    · by_cases hak : a.1 = k
      · simp [hdrDel, List.filter_cons, ha, hdrGet, hak, hne]
      · simpa [hdrDel, List.filter_cons, ha, hdrGet, hak] using ih

theorem hdrGet_set_self (l : HeaderMap) (k v : String) :
    hdrGet (hdrSet l k v) k = some v := by
  simp [hdrSet, hdrGet]

theorem hdrGet_set_ne (l : HeaderMap) (k k' v : String) (hne : k ≠ k') :
    hdrGet (hdrSet l k' v) k = hdrGet l k := by
  have hk : ¬ (k' = k) := fun hh => hne hh.symm
  simp only [hdrSet, hdrGet, hk, if_false]
  exact hdrGet_del_ne l k k' hne

/-- When the cache is well-formed, fetching through the store yields the same
certificate `signHost` would produce for the key. -/
theorem Fetch_wellFormed (cache : CertCache) (key : String)
    (hwfc : cacheWellFormed cache) :
    Fetch cache key (fun _ => signHost [key]) = signHost [key] := by
  unfold Fetch
  cases hf : cache.find? (fun p => p.1 == key) with
  | none => rfl
  | some p =>
    have hmem : p ∈ cache := List.mem_of_find?_eq_some hf
    have hkey := List.find?_some hf
    have hk : p.1 = key := by simpa using hkey
    have hp2 := hwfc p hmem
    show p.2 = signHost [key]
    rw [hp2, hk]

/-! ## The claims -/

/-- C1: the claim says every inner write error (status line, header block,
chunked body copy, chunked-writer close, trailing CRLF) terminates the TLS MITM
session loop.  The source checks the CONNECT-level hijack error `e` — which is
nil in every execution that reaches the loop — instead of the inner write error
`err` at the body-copy step (src/https.go 281) and the chunked-close step
(src/https.go 285), so errors from those two writes never terminate the loop:
the loop continues exactly as if the write had succeeded, contradicting the
claim (and the intent shown by the source's own warning messages at those
lines).  Errors from the other four writes do terminate the loop. -/
theorem mitm_write_error_silently_ignored :
    sessionLoopTerminatesAfterWrite none
      ⟨none, none, none, some "io: broken pipe", none, none⟩ = false ∧
    sessionLoopTerminatesAfterWrite none
      ⟨none, none, none, none, some "io: broken pipe", none⟩ = false ∧
    sessionLoopTerminatesAfterWrite none
      ⟨some "io: broken pipe", none, none, none, none, none⟩ = true ∧
    sessionLoopTerminatesAfterWrite none
      ⟨none, some "io: broken pipe", none, none, none, none⟩ = true ∧
    sessionLoopTerminatesAfterWrite none
      ⟨none, none, some "io: broken pipe", none, none, none⟩ = true ∧
    sessionLoopTerminatesAfterWrite none
      ⟨none, none, none, none, none, some "io: broken pipe"⟩ = true :=
  ⟨rfl, rfl, rfl, rfl, rfl, rfl⟩

/-- C2 counterexample: for a CONNECT with action Accept whose dial to the
target fails, the first bytes written to the hijacked client stream are the
502 error line, not `HTTP/1.0 200 OK\r\n\r\n` — the dial happens before the
200 is written (src/https.go 110-116), so the claim as stated is false. -/
theorem accept_dial_error_first_write_not_200 :
    (handleHttps .ConnectAccept "example.com:443"
        ⟨some "connection refused", false, none, false, none⟩
        [] [] []).clientEvents.head? = some (.written http502) ∧
    http502 ≠ http200 :=
  ⟨rfl, by decide⟩

/-- C2 (amended): for MitmHTTP and MitmTLS the first bytes written to the
hijacked client stream are exactly `HTTP/1.0 200 OK\r\n\r\n`; for Accept this
holds when the dial to the target succeeds. -/
theorem connect_first_write_200_amended (a : ConnectActionLiteral) (host : String)
    (o : ConnectOracle) (mitmSession relayBytes httpMitmSession : List ClientEvent)
    (ha : a = .ConnectMitm ∨ a = .ConnectHTTPMitm ∨
      (a = .ConnectAccept ∧ o.dialErr = none)) :
    (handleHttps a host o mitmSession relayBytes httpMitmSession).clientEvents.head?
      = some (.written http200) := by
  rcases ha with h | h | ⟨h, hd⟩
  · subst h
    by_cases hp : o.tlsFactoryPresent <;>
      cases he : o.tlsFactoryErr <;> simp [handleHttps, hp, he, httpErrorEvents]
  · subst h
    cases hd : o.dialErr <;> simp [handleHttps, hd]
  · subst h
    simp [handleHttps, hd]

theorem connect_first_write_200_amended_witness :
    (handleHttps .ConnectMitm "example.com:443" ⟨none, true, none, false, none⟩
        [] [] []).clientEvents.head? = some (.written http200) :=
  connect_first_write_200_amended .ConnectMitm "example.com:443"
    ⟨none, true, none, false, none⟩ [] [] [] (Or.inl rfl)

/-- C3 counterexample: on a non-200 parent-proxy response whose body read
fails, both dialers return the read error — which does not carry the body —
without closing the socket (src/https.go 391-393 and 432-434), so the claim as
stated is false. -/
theorem proxy_refusal_bodyread_error_leaves_socket_open :
    (plainProxyConnect (.ok ⟨403, ⟨"nope", some "read: connection reset"⟩⟩)).socketClosed
      = false ∧
    (plainProxyConnect (.ok ⟨403, ⟨"nope", some "read: connection reset"⟩⟩)).result
      = .error "read: connection reset" ∧
    (tlsProxyConnect (.ok ⟨403, ⟨"nope", some "read: connection reset"⟩⟩)).socketClosed
      = false :=
  ⟨rfl, rfl, rfl⟩

/-- C3 (amended): on a non-200 parent-proxy response, when reading the body
succeeds (in full for the plain dialer; bounded to 500 bytes for the HTTPS/WSS
dialer), the dialer closes the socket and returns an error carrying that body;
when the body read itself fails, the dialer returns the read error without
closing the socket; on status 200 both dialers return the raw socket. -/
theorem proxy_refusal_amended :
    (∀ resp : ProxyConnectResp, resp.statusCode ≠ 200 → resp.body.readErr = none →
        plainProxyConnect (.ok resp)
          = ⟨.error ("proxy refused connection" ++ resp.body.avail), true⟩) ∧
    (∀ resp : ProxyConnectResp, resp.statusCode ≠ 200 →
        (500 ≤ resp.body.avail.data.length ∨ resp.body.readErr = none) →
        tlsProxyConnect (.ok resp)
          = ⟨.error ("proxy refused connection"
              ++ String.mk (resp.body.avail.data.take 500)), true⟩) ∧
    (∀ (resp : ProxyConnectResp) (er : Err), resp.statusCode ≠ 200 →
        resp.body.readErr = some er →
        plainProxyConnect (.ok resp) = ⟨.error er, false⟩ ∧
        (resp.body.avail.data.length < 500 →
          tlsProxyConnect (.ok resp) = ⟨.error er, false⟩)) ∧
    (∀ resp : ProxyConnectResp, resp.statusCode = 200 →
        plainProxyConnect (.ok resp) = ⟨.ok (), false⟩ ∧
        tlsProxyConnect (.ok resp) = ⟨.ok (), false⟩) := by
  refine ⟨?_, ?_, ?_, ?_⟩
  · intro resp h200 hrd
    simp [plainProxyConnect, proxyConnectHandle, h200, readAllFull, hrd]
  · intro resp h200 hrd
    have hr : readAllLimited 500 resp.body
        = .ok (String.mk (resp.body.avail.data.take 500)) := by
      unfold readAllLimited
      rcases le_or_lt 500 resp.body.avail.data.length with hl | hl
      · rw [if_pos hl]
      · rw [if_neg (not_le_of_lt hl)]
        rcases hrd with h | h
        · exact absurd h (not_le_of_lt hl)
        · rw [h, List.take_of_length_le (le_of_lt hl)]
    simp [tlsProxyConnect, proxyConnectHandle, h200, hr]
  · intro resp er h200 hrd
    constructor
    · simp [plainProxyConnect, proxyConnectHandle, h200, readAllFull, hrd]
    · intro hl
      have hr : readAllLimited 500 resp.body = .error er := by
        unfold readAllLimited
        rw [if_neg (not_le_of_lt hl), hrd]
      simp [tlsProxyConnect, proxyConnectHandle, h200, hr]
  · intro resp h200
    constructor <;> simp [plainProxyConnect, tlsProxyConnect, proxyConnectHandle, h200]

theorem proxy_refusal_amended_witness :
    plainProxyConnect (.ok ⟨403, ⟨"nope", none⟩⟩)
      = ⟨.error ("proxy refused connection" ++ "nope"), true⟩ ∧
    tlsProxyConnect (.ok ⟨403, ⟨"nope", some "read: connection reset"⟩⟩)
      = ⟨.error "read: connection reset", false⟩ :=
  ⟨proxy_refusal_amended.1 ⟨403, ⟨"nope", none⟩⟩ (by decide) rfl,
   (proxy_refusal_amended.2.2.1 ⟨403, ⟨"nope", some "read: connection reset"⟩⟩
      "read: connection reset" (by decide) rfl).2 (by decide)⟩

/-- C4: for a TLS MITM handshake, the server name used for forging is the
ClientHello SNI when non-empty, else the CONNECT host with its trailing port
stripped; the forged certificate's SAN list is exactly that one name; and with
no certificate store configured, the generator runs directly instead of going
through Fetch.  The cache hypothesis says every stored certificate was produced
by `signHost` for its own key, which is how the spec says `Fetch` populates it. -/
theorem tls_cert_sni_override (store : Option CertCache) (connectHost sni : String)
    (hwf : ∀ cache, store = some cache → cacheWellFormed cache) :
    (getCertificate store connectHost sni).2.sanList
      = [getCertServerName connectHost sni] ∧
    (sni ≠ "" → getCertServerName connectHost sni = sni) ∧
    (sni = "" → getCertServerName connectHost sni = stripPort connectHost) ∧
    (store = none → (getCertificate store connectHost sni).1 = .directGen) ∧
    (∀ cache, store = some cache →
      (getCertificate store connectHost sni).1 = .viaFetch) := by
  refine ⟨?_, fun hs => by simp [getCertServerName, hs],
    fun hs => by simp [getCertServerName, hs], ?_, ?_⟩
  · cases store with
    | none => rfl
    | some cache =>
      show (Fetch cache (getCertServerName connectHost sni)
        (fun _ => signHost [getCertServerName connectHost sni])).sanList = _
      rw [Fetch_wellFormed cache _ (hwf cache rfl)]
      rfl
  · intro hn
    subst hn
    rfl
  · intro cache hc
    subst hc
    rfl

theorem tls_cert_sni_override_witness :
    (getCertificate (some [("cached.example", signHost ["cached.example"])])
        "10.0.0.1:443" "real.example").2.sanList = ["real.example"] ∧
    (getCertificate none "api.test:443" "").2.sanList = ["api.test"] ∧
    (getCertificate none "api.test:443" "").1 = CertPath.directGen := by
  have hnone : ∀ cache : CertCache, (none : Option CertCache) = some cache →
      cacheWellFormed cache := fun cache hc => Option.noConfusion hc
  have hcache : ∀ cache : CertCache,
      (some [("cached.example", signHost ["cached.example"])] :
        Option CertCache) = some cache → cacheWellFormed cache := by
    intro cache hc
    cases hc
    intro p hp
    simp only [List.mem_singleton] at hp
    subst hp
    rfl
  refine ⟨?_, ?_, ?_⟩
  · have h := tls_cert_sni_override
      (some [("cached.example", signHost ["cached.example"])])
      "10.0.0.1:443" "real.example" hcache
    rw [h.1, h.2.1 (by decide)]
  · have h := tls_cert_sni_override none "api.test:443" "" hnone
    rw [h.1, h.2.2.1 rfl]
    decide
  · exact (tls_cert_sni_override none "api.test:443" "" hnone).2.2.2.1 rfl

/-- C5: every inner response written to the client inside the TLS MITM session
loop uses a status line beginning with `HTTP/1.1`, has its Content-Length
header removed, and carries `Transfer-Encoding: chunked` and
`Connection: close` (src/https.go 258-271). -/
theorem mitm_response_rewrite_invariants (statusCode : Nat) (status : String)
    (h : HeaderMap) :
    (∃ rest, mitmStatusLine statusCode status = "HTTP/1.1" ++ rest) ∧
    hdrGet (mitmHeaderRewrite h) "Transfer-Encoding" = some "chunked" ∧
    hdrGet (mitmHeaderRewrite h) "Connection" = some "close" ∧
    hdrGet (mitmHeaderRewrite h) "Content-Length" = none := by
  have hTC : ("Transfer-Encoding" : String) ≠ "Connection" := by decide
  have hLC : ("Content-Length" : String) ≠ "Connection" := by decide
  have hLT : ("Content-Length" : String) ≠ "Transfer-Encoding" := by decide
  refine ⟨⟨" " ++ (toString statusCode ++ (" " ++
      (trimPrefixStr status (toString statusCode ++ " ") ++ "\r\n"))), ?_⟩, ?_, ?_, ?_⟩
  · simp only [mitmStatusLine, String.append_assoc]
  · simp only [mitmHeaderRewrite]
    rw [hdrGet_set_ne _ _ _ _ hTC, hdrGet_set_self]
  · simp only [mitmHeaderRewrite]
    rw [hdrGet_set_self]
  · simp only [mitmHeaderRewrite]
    rw [hdrGet_set_ne _ _ _ _ hLC, hdrGet_set_ne _ _ _ _ hLT, hdrGet_del_self]

/-- C6: for an inner MITM request whose URL does not begin with `https://`,
the URL used for the upstream round trip is the string `https://` followed by
the outer CONNECT request's host followed by the inner request's original URL
string (src/https.go 220-222). -/
theorem inner_url_synthesis (outerHost innerURL : String)
    (h : httpsRegexpMatch innerURL = false) :
    innerUpstreamURL outerHost innerURL = "https://" ++ outerHost ++ innerURL := by
  simp [innerUpstreamURL, h]

theorem inner_url_synthesis_witness :
    innerUpstreamURL "example.com:443" "/index.html"
      = "https://" ++ "example.com:443" ++ "/index.html" :=
  inner_url_synthesis "example.com:443" "/index.html" (by decide)

/-- C7: a CONNECT target routed through Accept and lacking a `:port` suffix is
dialed with `:80` appended; a parent-proxy URL with empty or `http` scheme and
no port gets `:80` appended; one with `https` or `wss` scheme and no port gets
`:443` appended. -/
theorem port_defaulting :
    (∀ (host : String) (o : ConnectOracle)
        (mitmSession relayBytes httpMitmSession : List ClientEvent),
        hasPortMatch host = false →
        (handleHttps .ConnectAccept host o mitmSession relayBytes
            httpMitmSession).dialedHost = some (host ++ ":80")) ∧
    (∀ u : ProxyURL, (u.scheme = "" ∨ u.scheme = "http") →
        hasPortMatch u.host = false →
        NewConnectDialToProxyWithHandler (some u)
          = some (.plainProxy (u.host ++ ":80"))) ∧
    (∀ u : ProxyURL, (u.scheme = "https" ∨ u.scheme = "wss") →
        hasPortMatch u.host = false →
        NewConnectDialToProxyWithHandler (some u)
          = some (.tlsProxy (u.host ++ ":443"))) := by
  refine ⟨?_, ?_, ?_⟩
  · intro host o ms rb hs hp
    cases hd : o.dialErr <;> simp [handleHttps, acceptHost, hp, hd]
  · rintro ⟨s, h⟩ hs hp
    rcases hs with hs | hs <;> subst hs <;>
      simp [NewConnectDialToProxyWithHandler, hp]
  · rintro ⟨s, h⟩ hs hp
    rcases hs with hs | hs <;> subst hs <;>
      simp [NewConnectDialToProxyWithHandler, hp]

theorem port_defaulting_witness :
    (handleHttps .ConnectAccept "example.com" ⟨none, false, none, false, none⟩
        [] [] []).dialedHost = some ("example.com" ++ ":80") ∧
    NewConnectDialToProxyWithHandler (some ⟨"http", "parent"⟩)
      = some (.plainProxy ("parent" ++ ":80")) ∧
    NewConnectDialToProxyWithHandler (some ⟨"wss", "parent"⟩)
      = some (.tlsProxy ("parent" ++ ":443")) :=
  ⟨port_defaulting.1 "example.com" ⟨none, false, none, false, none⟩ [] [] []
      (by decide),
   port_defaulting.2.1 ⟨"http", "parent"⟩ (Or.inr rfl) (by decide),
   port_defaulting.2.2 ⟨"wss", "parent"⟩ (Or.inr rfl) (by decide)⟩

/-- C8: for a CONNECT with action ProxyAuthHijack, the client trace is exactly
the 407 line — a single CRLF, no terminating blank line — followed by one
invocation of the Hijack callback with the request, the client stream and the
context (src/https.go 301-303): so the 407 bytes come first and the callback
runs exactly once. -/
theorem proxy_auth_hijack_trace (host : String) (o : ConnectOracle)
    (mitmSession relayBytes httpMitmSession : List ClientEvent) :
    (handleHttps .ConnectProxyAuthHijack host o mitmSession relayBytes
        httpMitmSession).clientEvents = [.written http407, .hijackInvoked] ∧
    (handleHttps .ConnectProxyAuthHijack host o mitmSession relayBytes
        httpMitmSession).clientEvents.count .hijackInvoked = 1 :=
  ⟨rfl, rfl⟩

/-- C9: for a MitmTLS CONNECT whose TLSConfig factory returns an error, the
client has already been sent `HTTP/1.0 200 OK\r\n\r\n` (src/https.go 178) and
then receives `HTTP/1.1 502 Bad Gateway\r\n\r\n`, after which its stream is
closed; the close happens even if the 502 write fails, since the oracle's
`write502Fails` flag is arbitrary here (src/https.go 184-192, 315-322). -/
theorem mitm_tls_factory_error_502_close (host : String) (o : ConnectOracle)
    (mitmSession relayBytes httpMitmSession : List ClientEvent) (e : Err)
    (hp : o.tlsFactoryPresent = true) (he : o.tlsFactoryErr = some e) :
    (handleHttps .ConnectMitm host o mitmSession relayBytes
        httpMitmSession).clientEvents
      = [.written http200, .written http502, .closed] := by
  simp [handleHttps, hp, he, httpErrorEvents]

theorem mitm_tls_factory_error_502_close_witness :
    (handleHttps .ConnectMitm "example.com:443"
        ⟨none, true, some "tls: no certificate", true, none⟩ [] [] []).clientEvents
      = [.written http200, .written http502, .closed] :=
  mitm_tls_factory_error_502_close "example.com:443"
    ⟨none, true, some "tls: no certificate", true, none⟩ [] [] []
    "tls: no certificate" rfl rfl

/-- C10: NewConnectDialToProxyWithHandler returns a nil dialer (not an error
value) when the parent-proxy URL fails to parse or its scheme is not one of
empty, http, https, wss (src/https.go 357-359, 441). -/
theorem connect_dial_nil_on_bad_url (parsed : Option ProxyURL)
    (h : parsed = none ∨ ∃ u, parsed = some u ∧ u.scheme ≠ "" ∧
      u.scheme ≠ "http" ∧ u.scheme ≠ "https" ∧ u.scheme ≠ "wss") :
    NewConnectDialToProxyWithHandler parsed = none := by
  rcases h with h | ⟨u, hu, h1, h2, h3, h4⟩
  · subst h
    rfl
  · subst hu
    simp [NewConnectDialToProxyWithHandler, h1, h2, h3, h4]

theorem connect_dial_nil_on_bad_url_witness :
    NewConnectDialToProxyWithHandler (some ⟨"socks5", "parent:1080"⟩) = none :=
  connect_dial_nil_on_bad_url (some ⟨"socks5", "parent:1080"⟩)
    (Or.inr ⟨⟨"socks5", "parent:1080"⟩, rfl, by decide, by decide, by decide,
      by decide⟩)

end Goproxy
